import Mathlib

/-!
Shallow embedding of `downloader.py`, a paginated image-gallery crawler.

The embedding models, faithfully to the source:
* `download_image` (admission policy: existence dedup, content-length
  threshold, exception swallowing),
* `get_page_title` (title / h1 / "Untitled" lookup),
* `get_next_url` (direct links and `javascript:ContentPageHref` templated
  pagination, with models of the two regular expressions used),
* `download_images` (the crawl loop), and
* the Python library operations they consume: `str.strip`, `str.replace`,
  `in` (substring), `int()` on strings, `os.path.join`,
  `url.split("/")[-1]`, `re.sub(r'[^\w\-_\. ]', '_', ·)`, and
  `urllib.parse.urljoin`.

Modelling conventions:
* HTTP is an oracle `String → Option ImgResponse` (resp. page oracle);
  `none` models a transport-level exception raised by `requests.get`.
* The filesystem is an association list from paths to byte lists; a write
  conses an entry.  `download_image` also returns the list of URLs it
  actually issued a GET for, so that "no fetch happens" is expressible.
* Python floats are modelled by ℚ.  The only float arithmetic in the source
  is `content_length / 1024` and its comparison with `min_size_kb`; for the
  integer byte counts and thresholds involved here binary floating point is
  exact, so the rational model agrees with the float semantics.
* The `\w` class of the folder-sanitization regex is Unicode in Python;
  its character table is external data and is modelled as an oracle
  parameter `wordChar` (its ASCII restriction, `asciiWordChar`, is exact
  and instantiates the concrete examples).  `\d`, `\s` and `str.strip`
  are modelled on their ASCII meaning: the strings they scan here are
  URLs and header values.
-/

/-- Python whitespace characters (the ASCII part of `\s` and `str.strip`). -/
def pyIsSpace (c : Char) : Bool :=
  c = ' ' ∨ c = '\t' ∨ c = '\n' ∨ c = '\x0d' ∨ c = '\x0b' ∨ c = '\x0c'

/-- Model of Python `str.strip()` on a character list. -/
def pyStripChars (l : List Char) : List Char :=
  ((l.dropWhile pyIsSpace).reverse.dropWhile pyIsSpace).reverse

/-- Model of Python `str.strip()`. -/
def pyStrip (s : String) : String :=
  ⟨pyStripChars s.data⟩

/-- Numeric value of a decimal digit run, most significant first. -/
def digitsVal (l : List Char) : Nat :=
  l.foldl (fun n c => 10 * n + (c.toNat - 48)) 0

/-- Digit run with Python's optional single underscores between digits
(grammar `digit ( '_'? digit )*`), accumulating the value. -/
def pyDigitsGo (acc : Nat) : List Char → Option Nat
  | [] => some acc
  | '_' :: rest =>
    match rest with
    | c :: rest2 =>
      if c.isDigit then pyDigitsGo (10 * acc + (c.toNat - 48)) rest2 else none
    | [] => none
  | c :: rest =>
    if c.isDigit then pyDigitsGo (10 * acc + (c.toNat - 48)) rest else none

/-- Nonempty digit run with optional underscores, as accepted by `int()`. -/
def pyDigitsVal : List Char → Option Nat
  | [] => none
  | c :: rest =>
    if c.isDigit then pyDigitsGo (c.toNat - 48) rest else none

/-- Model of Python `int(s)` on a string: strip whitespace, optional sign,
decimal digits (underscores allowed between digits); `none` models the
`ValueError` raised on anything else. -/
def pyIntParse (s : String) : Option Int :=
  match pyStripChars s.data with
  | '+' :: rest => (pyDigitsVal rest).map (fun n => (n : Int))
  | '-' :: rest => (pyDigitsVal rest).map (fun n => -(n : Int))
  | rest => (pyDigitsVal rest).map (fun n => (n : Int))

/-- Model of `url.split("/")[-1]`: the substring after the last `/`
(the whole string when it has no `/`). -/
def lastSegment (url : String) : String :=
  ⟨(url.data.reverse.takeWhile (fun c => c ≠ '/')).reverse⟩

/-- Model of POSIX `os.path.join(folder, name)` for two components. -/
def osPathJoin (folder name : String) : String :=
  if name.data.head? = some '/' then name
  else if folder = "" then name
  else if folder.data.getLast? = some '/' then ⟨folder.data ++ name.data⟩
  else ⟨folder.data ++ '/' :: name.data⟩

/-- The filesystem: an association list from paths to file contents
(byte lists).  A write conses a new entry; `os.path.exists` is a lookup. -/
abbrev Fs := List (String × List Nat)

/-- Model of `os.path.exists` / reading a file: first entry for the path. -/
def fsLook (fs : Fs) (p : String) : Option (List Nat) :=
  List.lookup p fs

/-- Response to an image GET: the declared `content-length` header (absent
or a raw string) and the body (the concatenation of the streamed chunks). -/
structure ImgResponse where
  contentLength : Option String
  body : List Nat

/-- Value of `int(img_response.headers.get('content-length', 0))`:
an absent header falls back to the integer `0`; a present header is parsed
by `int()`, and `none` models the `ValueError` raised when it is not
numeric (caught by the enclosing `except`). -/
def contentLengthVal (h : Option String) : Option Int :=
  match h with
  | none => some 0
  | some s => pyIntParse s

/-- Shallow embedding of `download_image(url, folder, min_size_kb)`.
`http` is the oracle behind `requests.get(url, stream=True)`; `none`
models a raised transport exception (caught by the function's `except`).
Returns the new filesystem and the list of URLs fetched (so that "no GET
was issued" is expressible).  The `try/except` swallows every failure,
leaving the filesystem unchanged on any error path. -/
def download_image (http : String → Option ImgResponse) (url folder : String)
    (min_size_kb : ℚ) (fs : Fs) : Fs × List String :=
  let img_filename := lastSegment url
  let img_path := osPathJoin folder img_filename
  if (fsLook fs img_path).isSome then (fs, [])
  else
    match http url with
    | none => (fs, [url])
    | some resp =>
      match contentLengthVal resp.contentLength with
      | none => (fs, [url])
      | some n =>
        let img_size_kb : ℚ := (n : ℚ) / 1024
        if img_size_kb ≥ min_size_kb then ((img_path, resp.body) :: fs, [url])
        else (fs, [url])

/-- Model of a BeautifulSoup `Tag` as consumed by `get_page_title`:
`empty` is a tag with no contents (its `.string` is `None`);
`withString s` is a tag whose `.string` is the text `s`; `other` is a tag
with several children, whose `.string` is also `None`.  bs4's
`Tag.__bool__` returns `True` for every tag, so any *found* tag passes an
`if tag:` test — truthiness only distinguishes `find`'s `None` result,
which the surrounding `Option` models. -/
inductive TagNode
  | empty
  | withString (s : String)
  | other
deriving DecidableEq

/-- The `.string` attribute of a `Tag` (`none` models Python `None`). -/
def tagStr : TagNode → Option String
  | .withString s => some s
  | _ => none

/-- Model of a parsed page (`BeautifulSoup` object) restricted to the
queries the source performs on it:
`title` is `soup.find('title')`, `h1` is `soup.find('h1')`,
`imgs` lists `img.get('src')` for each `<img>` in document order
(`none` = no `src` attribute), and `nextLink` is the result of
`soup.find('a', string='下一页')`: `none` when no such anchor exists,
`some none` when it exists without an `href` attribute, and
`some (some href)` when it has one.  (An anchor found by its string is
never empty, so its Python truthiness is always true.) -/
structure Soup where
  title : Option TagNode
  h1 : Option TagNode
  imgs : List (Option String)
  nextLink : Option (Option String)

/-- Result of `tag.string.strip()` then conversion: `.error ()` models the
`AttributeError` raised by `None.strip()` when `.string` is `None`. -/
def tagTextResult (convert : String → String) : TagNode → Except Unit String
  | .withString s => Except.ok (convert (pyStrip s))
  | _ => Except.error ()

/-- The `h1` fallback and final `return "Untitled"` of `get_page_title`.
A found `h1` tag is truthy (`Tag.__bool__` is `True` on every tag), so its
text is taken — raising when its `.string` is `None`. -/
def h1_or_untitled (convert : String → String) (soup : Soup) : Except Unit String :=
  match soup.h1 with
  | some t => tagTextResult convert t
  | none => Except.ok "Untitled"

/-- Shallow embedding of `get_page_title(soup)`.  `convert` is the opencc
simplified-to-traditional conversion, an external collaborator modelled as
an arbitrary function.  `.error ()` models an uncaught `AttributeError`
(raised when the chosen tag's `.string` is `None`). -/
def get_page_title (convert : String → String) (soup : Soup) : Except Unit String :=
  match soup.title with
  | some t => tagTextResult convert t
  | none => h1_or_untitled convert soup

/-- The ASCII restriction of the Unicode regex class `\w` (letters, digits,
underscore).  It is exact on ASCII code points and instantiates the
concrete examples below. -/
def asciiWordChar (c : Char) : Bool :=
  c.isAlphanum || c = '_'

/-- A character matched by the class `[^\w\-_\. ]` of the sanitization
regex in `download_images` (line 109).  Python's `\w` here is Unicode
(CJK ideographs, accented letters and other Unicode alphanumerics are
word characters); its character table is external data, passed as the
oracle `wordChar`, whose ASCII restriction is `asciiWordChar`. -/
def sanitizeHit (wordChar : Char → Bool) (c : Char) : Bool :=
  !(wordChar c || c = '-' || c = '_' || c = '.' || c = ' ')

/-- Model of `re.sub(r'[^\w\-_\. ]', '_', title)`: every character matched
by the class is replaced by `_`, every other character kept.  `wordChar`
is the Unicode `\w` table (see `sanitizeHit`). -/
def sanitize_folder (wordChar : Char → Bool) (title : String) : String :=
  ⟨title.data.map (fun c => if sanitizeHit wordChar c then '_' else c)⟩

/-- Substring test, modelling Python's `in` on strings. -/
def hasSubstr (pat : List Char) : List Char → Bool
  | [] => pat.isEmpty
  | c :: rest => pat.isPrefixOf (c :: rest) ∨ hasSubstr pat rest

/-- Fuel-driven core of `str.replace`: replace non-overlapping occurrences
of `pat` left to right.  The fuel is an upper bound on the input length;
the callers always supply enough. -/
def pyReplaceAux (pat rep : List Char) : Nat → List Char → List Char
  | 0, s => s
  | _ + 1, [] => []
  | fuel + 1, c :: rest =>
    if pat ≠ [] ∧ pat.isPrefixOf (c :: rest) then
      rep ++ pyReplaceAux pat rep fuel ((c :: rest).drop pat.length)
    else
      c :: pyReplaceAux pat rep fuel rest

/-- Model of Python `s.replace(pat, rep)` for nonempty `pat` (the source
only uses the literal pattern `[page]`). -/
def pyReplace (s pat rep : String) : String :=
  ⟨pyReplaceAux pat.data rep.data (s.data.length + 1) s.data⟩

/-- Model of `str.startswith` / checking a literal prefix. -/
def pyStartsWith (s pre : String) : Bool :=
  pre.data.isPrefixOf s.data

/-- Consume one expected character from the front of a list. -/
def expectChar (c : Char) (l : List Char) : Option (List Char) :=
  match l with
  | x :: rest => if x = c then some rest else none
  | [] => none

/-- Model of `re.search(r",\s*'([^']*)'\);?$", href)`, returning the
captured group.  Because the pattern is anchored at the end of the string
and the group excludes quotes, a match — if any — is the unique suffix
`, <whitespace> '<capture>')` optionally followed by `;`; the model scans
the string from its end accordingly. -/
def extractTemplate (href : String) : Option String :=
  let rev := href.data.reverse
  let r0 := match expectChar ';' rev with
    | some rest => rest
    | none => rev
  match expectChar ')' r0 with
  | none => none
  | some r0a =>
    match expectChar '\'' r0a with
    | none => none
    | some r1 =>
      let tRev := r1.takeWhile (fun c => c ≠ '\'')
      match expectChar '\'' (r1.dropWhile (fun c => c ≠ '\'')) with
      | none => none
      | some r2 =>
        match expectChar ',' (r2.dropWhile pyIsSpace) with
        | none => none
        | some _ => some ⟨tRev.reverse⟩

/-- Model of `re.search(r"_(\d+)\.html$", current_url)`, returning the
value of the captured digit group.  A match — if any — is forced to be the
maximal digit run immediately before a trailing `.html`, preceded by `_`;
the model scans from the end of the string. -/
def trailingPageNum (url : String) : Option Nat :=
  let rev := url.data.reverse
  if ['l', 'm', 't', 'h', '.'].isPrefixOf rev then
    let r1 := rev.drop 5
    let ds := r1.takeWhile Char.isDigit
    if ds = [] then none
    else
      match expectChar '_' (r1.dropWhile Char.isDigit) with
      | some _ => some (digitsVal ds.reverse)
      | none => none
  else none

/-- Characters allowed in a URL scheme after the first (CPython
`scheme_chars`, restricted to ASCII). -/
def schemeChar (c : Char) : Bool :=
  c.isAlphanum ∨ c = '+' ∨ c = '-' ∨ c = '.'

/-- Scheme detection of `urllib.parse.urlsplit`: the part before the first
`:` must be a letter followed by scheme characters; the scheme is
lowercased.  `none` means the URL carries no scheme. -/
def schemeSplit (url : List Char) : Option (List Char × List Char) :=
  match expectChar ':' (url.dropWhile (fun c => c ≠ ':')) with
  | none => none
  | some rest =>
    match url.takeWhile (fun c => c ≠ ':') with
    | [] => none
    | c :: cs =>
      if c.isAlpha ∧ cs.all schemeChar then
        some ((c :: cs).map Char.toLower, rest)
      else none

/-- CPython's `uses_relative` list: schemes a relative URL may inherit. -/
def usesRelative (scheme : List Char) : Bool :=
  ["", "ftp", "http", "gopher", "nntp", "imap", "wais", "file", "https",
   "shttp", "mms", "prospero", "rtsp", "rtspu", "sftp", "svn", "svn+ssh",
   "ws", "wss"].contains ⟨scheme⟩

/-- CPython's `uses_netloc` list: schemes with a network location part. -/
def usesNetloc (scheme : List Char) : Bool :=
  ["", "ftp", "http", "gopher", "nntp", "telnet", "imap", "wais", "file",
   "mms", "https", "shttp", "snews", "prospero", "rtsp", "rtspu", "rsync",
   "svn", "svn+ssh", "sftp", "nfs", "git", "git+ssh", "ws",
   "wss"].contains ⟨scheme⟩

/-- The scheme-free part of a split URL: network location, path, query and
fragment, each empty when absent (as in CPython's `urlsplit`). -/
structure UrlRest where
  netloc : List Char
  path : List Char
  query : List Char
  frag : List Char

/-- Model of `urlsplit` after the scheme has been removed: an optional
`//netloc` (up to the first `/?#`), then the fragment split at the first
`#`, then the query split at the first `?`. -/
def splitRest (u : List Char) : UrlRest :=
  let (netloc, u1) :=
    if ['/', '/'].isPrefixOf u then
      ((u.drop 2).takeWhile (fun c => ¬ (c = '/' ∨ c = '?' ∨ c = '#')),
       (u.drop 2).dropWhile (fun c => ¬ (c = '/' ∨ c = '?' ∨ c = '#')))
    else ([], u)
  let (u2, frag) :=
    if u1.contains '#' then
      (u1.takeWhile (fun c => c ≠ '#'), (u1.dropWhile (fun c => c ≠ '#')).drop 1)
    else (u1, [])
  let (path, query) :=
    if u2.contains '?' then
      (u2.takeWhile (fun c => c ≠ '?'), (u2.dropWhile (fun c => c ≠ '?')).drop 1)
    else (u2, [])
  ⟨netloc, path, query, frag⟩

/-- Model of `urlunsplit` on (scheme, netloc, path, query, fragment). -/
def urlunsplit (scheme netloc path query frag : List Char) : List Char :=
  let u :=
    if netloc ≠ [] ∨ path.take 2 = ['/', '/'] then
      ['/', '/'] ++ netloc ++
        (if path ≠ [] ∧ path.head? ≠ some '/' then '/' :: path else path)
    else path
  let u := if scheme ≠ [] then scheme ++ ':' :: u else u
  let u := if query ≠ [] then u ++ '?' :: query else u
  if frag ≠ [] then u ++ '#' :: frag else u

/-- Split a character list on a separator, CPython `str.split(sep)` style
(always at least one piece; empty pieces kept). -/
def splitOnChar (sep : Char) : List Char → List (List Char)
  | [] => [[]]
  | c :: rest =>
    let r := splitOnChar sep rest
    if c = sep then [] :: r
    else
      match r with
      | p :: ps => (c :: p) :: ps
      | [] => [[c]]

/-- The segment filtering step `segments[1:-1] = filter(None, segments[1:-1])`
of `urljoin`: drop empty segments, keeping the first and last. -/
def filterMid (segs : List (List Char)) : List (List Char) :=
  match segs with
  | [] => []
  | [a] => [a]
  | a :: rest =>
    match rest.getLast? with
    | none => [a]
    | some lastSeg =>
      a :: (rest.dropLast.filter (fun s => s ≠ [])) ++ [lastSeg]

/-- The dot-segment resolution loop of `urljoin`: `..` pops the last
resolved segment (ignoring underflow), `.` is skipped. -/
def resolveDots (segs : List (List Char)) : List (List Char) :=
  segs.foldl
    (fun acc seg =>
      if seg = ['.', '.'] then acc.dropLast
      else if seg = ['.'] then acc
      else acc ++ [seg])
    []

/-- Model of `urllib.parse.urljoin(base, url)` (CPython, `urlsplit`-based;
path parameters `;` are not modelled, the source never produces them). -/
def urljoin (base url : String) : String :=
  if base = "" then url
  else if url = "" then base
  else
    let (bscheme, brest) := match schemeSplit base.data with
      | some (s, r) => (s, r)
      | none => ([], base.data)
    let b := splitRest brest
    let (uscheme, urest) := match schemeSplit url.data with
      | some (s, r) => (s, r)
      | none => (bscheme, url.data)
    let u := splitRest urest
    if uscheme ≠ bscheme ∨ ¬ usesRelative uscheme then url
    else
      let (netloc, done) :=
        if usesNetloc uscheme ∧ u.netloc ≠ [] then (u.netloc, true)
        else (b.netloc, false)
      if done then
        ⟨urlunsplit uscheme u.netloc u.path u.query u.frag⟩
      else if u.path = [] then
        let q := if u.query ≠ [] then u.query else b.query
        ⟨urlunsplit uscheme netloc b.path q u.frag⟩
      else
        let baseParts0 := splitOnChar '/' b.path
        let baseParts :=
          if baseParts0.getLast? ≠ some [] then baseParts0.dropLast
          else baseParts0
        let segments :=
          if u.path.head? = some '/' then splitOnChar '/' u.path
          else filterMid (baseParts ++ splitOnChar '/' u.path)
        let resolved := resolveDots segments ++
          (if segments.getLast? = some ['.'] ∨ segments.getLast? = some ['.', '.']
           then [[]] else [])
        let joined := List.intercalate ['/'] resolved
        let path := if joined = [] then ['/'] else joined
        ⟨urlunsplit uscheme netloc path u.query u.frag⟩

/-- Shallow embedding of `get_next_url(soup, current_url)`.  Returns the
absolute URL of the next page, or `none`.  The inner `try/except` of the
source can never fire in the model (regex failure is already the
fall-through to `return None`). -/
def get_next_url (soup : Soup) (current_url : String) : Option String :=
  match soup.nextLink with
  | some (some href) =>
    if pyStartsWith href "javascript:ContentPageHref" then
      match extractTemplate href with
      | some url_template =>
        let current_page :=
          match trailingPageNum current_url with
          | some n => n
          | none => 1
        let next_page := current_page + 1
        if hasSubstr "[page]".data url_template.data then
          some (urljoin current_url (pyReplace url_template "[page]" (toString next_page)))
        else none
      | none => none
    else some (urljoin current_url href)
  | _ => none

/-- A page fetch response: HTTP status code and the parsed document
(`BeautifulSoup(response.content, 'html.parser')`). -/
structure PageResp where
  status : Nat
  soup : Soup

/-- Terminal state of one crawl run.  `done` is the normal "no more pages"
exit, `abortedHttp` the normal exit on a non-200 page status, and
`crashed` models an exception propagating out of `download_images`
(the page-level `requests.get` calls are not wrapped in any `try`). -/
inductive CrawlOutcome
  | done
  | abortedHttp
  | crashed
deriving DecidableEq

/-- The per-page image pass of `download_images` (lines 122-130): for each
`<img>` with a truthy `src`, resolve it against the page URL and admit it
when the resolved URL starts with `http`. -/
def images_go (iget : String → Option ImgResponse) (url folder : String)
    (min_size_kb : ℚ) : List (Option String) → Fs → Fs
  | [], fs => fs
  | src? :: rest, fs =>
    let fs1 :=
      match src? with
      | none => fs
      | some src =>
        if src = "" then fs
        else
          let img_url := urljoin url src
          if pyStartsWith img_url "http" then
            (download_image iget img_url folder min_size_kb fs).1
          else fs
    images_go iget url folder min_size_kb rest fs1

/-- See `images_go`: the images of the page in document order. -/
def process_images (iget : String → Option ImgResponse) (soup : Soup)
    (url folder : String) (min_size_kb : ℚ) (fs : Fs) : Fs :=
  images_go iget url folder min_size_kb soup.imgs fs

/-- The `while True` loop of `download_images` (lines 118-147), with fuel.
One iteration downloads the images of the current page, resolves the next
URL (a falsy result — `None` or the empty string — breaks to `done`),
fetches it (`none` from the oracle models an uncaught transport exception,
hence `crashed`; a non-200 status breaks to `abortedHttp`) and recurses on
the new page.  `none` overall means the fuel ran out. -/
def crawl_loop (pget : String → Option PageResp) (iget : String → Option ImgResponse)
    (folder : String) (min_size_kb : ℚ) :
    Nat → Soup → String → Fs → Option (Fs × CrawlOutcome)
  | 0, _, _, _ => none
  | fuel + 1, soup, url, fs =>
    let fs1 := process_images iget soup url folder min_size_kb fs
    match get_next_url soup url with
    | none => some (fs1, CrawlOutcome.done)
    | some next_url =>
      if next_url = "" then some (fs1, CrawlOutcome.done)
      else
        match pget next_url with
        | none => some (fs1, CrawlOutcome.crashed)
        | some resp =>
          if resp.status ≠ 200 then some (fs1, CrawlOutcome.abortedHttp)
          else crawl_loop pget iget folder min_size_kb fuel resp.soup next_url fs1

/-- Shallow embedding of `download_images(start_url, min_size_kb)`.
`pget` is the oracle behind the page-level `requests.get` (the parsed
document is bundled with the status); `none` models a transport exception,
which the source does not catch at page level, hence `crashed`.  A non-200
initial status returns normally (`abortedHttp`).  The title extraction can
itself raise (see `get_page_title`), which also crashes the process, and so
can the uncaught `os.makedirs(output_folder, exist_ok=True)` (lines
111-112): with an empty folder name (an empty title) it raises
`FileNotFoundError`; environment-dependent filesystem failures are not
modelled, and an existing directory is no error (`exist_ok=True`, files
only in `Fs`).  `wordChar` is the Unicode `\w` table used by the folder
sanitization.  `none` overall means the fuel ran out. -/
def download_images (pget : String → Option PageResp)
    (iget : String → Option ImgResponse) (convert : String → String)
    (wordChar : Char → Bool) (start_url : String) (min_size_kb : ℚ)
    (fuel : Nat) (fs : Fs) : Option (Fs × CrawlOutcome) :=
  match pget start_url with
  | none => some (fs, CrawlOutcome.crashed)
  | some response =>
    if response.status ≠ 200 then some (fs, CrawlOutcome.abortedHttp)
    else
      match get_page_title convert response.soup with
      | Except.error _ => some (fs, CrawlOutcome.crashed)
      | Except.ok title =>
        let output_folder := sanitize_folder wordChar title
        if output_folder = "" then some (fs, CrawlOutcome.crashed)
        else crawl_loop pget iget output_folder min_size_kb fuel response.soup start_url fs

theorem takeWhile_all_append {α : Type} {p : α → Bool} {l1 : List α}
    (h : ∀ c ∈ l1, p c = true) {x : α} (hx : p x = false) (l2 : List α) :
    (l1 ++ x :: l2).takeWhile p = l1 := by
  induction l1 with
  | nil => simp [List.takeWhile_cons, hx]
  | cons a l ih =>
    have ha : p a = true := h a (by simp)
    simp only [List.cons_append, List.takeWhile_cons, ha, if_true]
    exact congrArg (a :: ·) (ih (fun c hc => h c (by simp [hc])))

theorem dropWhile_all_append {α : Type} {p : α → Bool} {l1 : List α}
    (h : ∀ c ∈ l1, p c = true) {x : α} (hx : p x = false) (l2 : List α) :
    (l1 ++ x :: l2).dropWhile p = x :: l2 := by
  induction l1 with
  | nil => simp [List.dropWhile_cons, hx]
  | cons a l ih =>
    have ha : p a = true := h a (by simp)
    simp only [List.cons_append, List.dropWhile_cons, ha, if_true]
    exact ih (fun c hc => h c (by simp [hc]))

/-- C9: for every Unicode `\w` table, folder-name sanitization keeps
exactly the characters in {word characters, `-`, `_`, `.`, space} and
replaces every other character with `_`, position by position; in
particular `A/B:C` (all ASCII, so the exact `asciiWordChar` restriction
applies) sanitizes to `A_B_C`. -/
theorem sanitize_folder_spec (wordChar : Char → Bool) (title : String) :
    ((sanitize_folder wordChar title).data.length = title.data.length ∧
      ∀ i : Nat, (sanitize_folder wordChar title).data[i]?
        = (title.data[i]?).map
            (fun c =>
              if wordChar c || c = '-' || c = '_' || c = '.' || c = ' ' then c
              else '_'))
    ∧ sanitize_folder asciiWordChar "A/B:C" = "A_B_C" := by
  refine ⟨⟨by simp [sanitize_folder], fun i => ?_⟩, by decide⟩
  have hfun : ∀ c : Char, (if sanitizeHit wordChar c then '_' else c)
      = (if wordChar c || c = '-' || c = '_' || c = '.' || c = ' ' then c else '_') := by
    intro c
    cases hb : (wordChar c || c = '-' || c = '_' || c = '.' || c = ' ') <;>
      simp [sanitizeHit, hb]
  simp [sanitize_folder, List.getElem?_map, hfun]

/-- C6 counterexample: a page whose title element is present but empty
(`.string` is `None`, the tag itself truthy since `Tag.__bool__` is always
`True`) and whose heading is missing makes `get_page_title` raise
`AttributeError` (`None.strip()`) — modelled as `.error ()` — instead of
returning `"Untitled"` as the claim states. -/
theorem get_page_title_empty_title :
    get_page_title id ⟨some TagNode.empty, none, [], none⟩ = Except.error () :=
  rfl

/-- C6 (amended): the title lookup returns the trimmed (and
script-converted) `.string` of the `<title>` tag when one with a string is
present; when no title element is present it falls back to the first
`<h1>`'s trimmed string, and to the literal `"Untitled"` when that is also
missing; but a title element that is present with a `None` `.string`
(e.g. an empty `<title></title>`) raises `AttributeError` instead of
falling through — the empty-title case does not yield `Untitled`. -/
theorem get_page_title_spec (convert : String → String) (soup : Soup) :
    (∀ s, soup.title = some (TagNode.withString s) →
        get_page_title convert soup = Except.ok (convert (pyStrip s))) ∧
    (soup.title = none →
      (∀ s, soup.h1 = some (TagNode.withString s) →
          get_page_title convert soup = Except.ok (convert (pyStrip s))) ∧
      (soup.h1 = none → get_page_title convert soup = Except.ok "Untitled")) ∧
    (∀ t, soup.title = some t → tagStr t = none →
        get_page_title convert soup = Except.error ()) := by
  refine ⟨fun s hs => ?_, fun ht => ⟨fun s hs => ?_, fun hh => ?_⟩,
    fun t ht hstr => ?_⟩
  · simp [get_page_title, hs, tagTextResult]
  · simp [get_page_title, h1_or_untitled, ht, hs, tagTextResult]
  · simp [get_page_title, h1_or_untitled, ht, hh]
  · cases t <;> simp_all [get_page_title, tagTextResult, tagStr]

/-- Witness for C6 at a concrete page: both tags missing gives Untitled. -/
theorem get_page_title_spec_witness :
    get_page_title id ⟨none, none, [], none⟩ = Except.ok "Untitled" :=
  ((get_page_title_spec id ⟨none, none, [], none⟩).2.1 rfl).2 rfl

/-- C7: when the page has no `下一页` anchor, or the anchor has no `href`
attribute, `get_next_url` returns `none`, and the crawl loop then finishes
the current page's downloads and terminates in the `done` state. -/
theorem no_next_page_done (pget : String → Option PageResp)
    (iget : String → Option ImgResponse) (folder : String) (min_size_kb : ℚ)
    (fuel : Nat) (soup : Soup) (url : String) (fs : Fs)
    (h : soup.nextLink = none ∨ soup.nextLink = some none) :
    get_next_url soup url = none ∧
    crawl_loop pget iget folder min_size_kb (fuel + 1) soup url fs
      = some (process_images iget soup url folder min_size_kb fs, CrawlOutcome.done) := by
  have h1 : get_next_url soup url = none := by
    rcases h with h | h <;> simp [get_next_url, h]
  exact ⟨h1, by simp [crawl_loop, h1]⟩

/-- Witness for C7 at a concrete page with no next anchor. -/
theorem no_next_page_done_witness :
    get_next_url ⟨none, none, [], none⟩ "http://a/p.html" = none ∧
    crawl_loop (fun _ => none) (fun _ => none) "F" 25 1 ⟨none, none, [], none⟩
        "http://a/p.html" []
      = some ([], CrawlOutcome.done) :=
  no_next_page_done (fun _ => none) (fun _ => none) "F" 25 0 ⟨none, none, [], none⟩
    "http://a/p.html" [] (Or.inl rfl)

/-- C8: a next-page anchor whose href does not start with the
`javascript:ContentPageHref` prefix is resolved against the current URL. -/
theorem get_next_url_direct (soup : Soup) (current_url href : String)
    (hlink : soup.nextLink = some (some href))
    (hjs : pyStartsWith href "javascript:ContentPageHref" = false) :
    get_next_url soup current_url = some (urljoin current_url href) := by
  simp [get_next_url, hlink, hjs]

/-- Witness for C8: `page2.html` on `https://x/gallery/page1.html`. -/
theorem get_next_url_direct_witness :
    get_next_url ⟨none, none, [], some (some "page2.html")⟩ "https://x/gallery/page1.html"
      = some "https://x/gallery/page2.html" :=
  (get_next_url_direct ⟨none, none, [], some (some "page2.html")⟩
    "https://x/gallery/page1.html" "page2.html" rfl (by decide)).trans (by decide)

/-- The regex model extracts the trailing single-quoted argument: for an
href of shape `…, <ws>'T')` optionally ending in `;`, with `ws` whitespace
and `T` quote-free, the captured template is exactly `T`. -/
theorem extractTemplate_of_structure (pre ws T tail : List Char)
    (hws : ∀ c ∈ ws, pyIsSpace c = true)
    (hT : ∀ c ∈ T, ¬ c = '\'')
    (htail : tail = [] ∨ tail = [';']) :
    extractTemplate ⟨pre ++ ',' :: ws ++ '\'' :: T ++ '\'' :: ')' :: tail⟩
      = some ⟨T⟩ := by
  have hrev : (pre ++ ',' :: ws ++ '\'' :: T ++ '\'' :: ')' :: tail).reverse
      = tail.reverse ++ ')' :: '\'' :: (T.reverse ++ '\'' :: (ws.reverse ++ ',' :: pre.reverse)) := by
    simp [List.reverse_append]
  have hTr : ∀ c ∈ T.reverse, (fun c => !decide (c = '\'')) c = true := by
    intro c hc
    simp only [List.mem_reverse] at hc
    simp [hT c hc]
  have htk : (T.reverse ++ '\'' :: (ws.reverse ++ ',' :: pre.reverse)).takeWhile
      (fun c => !decide (c = '\'')) = T.reverse :=
    takeWhile_all_append hTr (by decide) _
  have hdr : (T.reverse ++ '\'' :: (ws.reverse ++ ',' :: pre.reverse)).dropWhile
      (fun c => !decide (c = '\'')) = '\'' :: (ws.reverse ++ ',' :: pre.reverse) :=
    dropWhile_all_append hTr (by decide) _
  have hwsr : ∀ c ∈ ws.reverse, pyIsSpace c = true := fun c hc =>
    hws c (List.mem_reverse.mp hc)
  have hds : (ws.reverse ++ ',' :: pre.reverse).dropWhile pyIsSpace = ',' :: pre.reverse :=
    dropWhile_all_append hwsr (by decide) _
  rcases htail with h | h <;> subst h <;>
    simp [extractTemplate, hrev, expectChar, htk, hdr, hds]

/-- C1: for a next-page anchor carrying a `javascript:ContentPageHref` call
whose href ends with a single-quoted argument `T` (after a comma and
optional whitespace, with closing parenthesis and optional semicolon), the
next URL is computed by taking the current page number from a trailing
`_<digits>.html` match on the current URL (1 when there is no match),
substituting its successor for the literal `[page]` in `T`, and resolving
the result against the current URL. -/
theorem get_next_url_templated (soup : Soup) (current_url href : String)
    (T : String) (pre ws tail : List Char)
    (hlink : soup.nextLink = some (some href))
    (hjs : pyStartsWith href "javascript:ContentPageHref" = true)
    (hform : href.data = pre ++ ',' :: ws ++ '\'' :: T.data ++ '\'' :: ')' :: tail)
    (hws : ∀ c ∈ ws, pyIsSpace c = true)
    (hT : ∀ c ∈ T.data, ¬ c = '\'')
    (htail : tail = [] ∨ tail = [';'])
    (hpage : hasSubstr "[page]".data T.data = true) :
    get_next_url soup current_url
      = some (urljoin current_url
          (pyReplace T "[page]"
            (toString ((trailingPageNum current_url).getD 1 + 1)))) := by
  have hext : extractTemplate href = some T := by
    have h2 := extractTemplate_of_structure pre ws T.data tail hws hT htail
    rw [← hform] at h2
    exact h2
  cases hpn : trailingPageNum current_url <;>
    simp [get_next_url, hlink, hjs, hext, hpage, hpn, Option.getD]

/-- Witness for C1: the spec's example anchor on `https://x/g_3.html`
resolves to `https://x/gallery_4.html`. -/
theorem get_next_url_templated_witness :
    get_next_url
        ⟨none, none, [],
          some (some "javascript:ContentPageHref(1,2, 'gallery_[page].html');")⟩
        "https://x/g_3.html"
      = some "https://x/gallery_4.html" :=
  (get_next_url_templated
      ⟨none, none, [],
        some (some "javascript:ContentPageHref(1,2, 'gallery_[page].html');")⟩
      "https://x/g_3.html" "javascript:ContentPageHref(1,2, 'gallery_[page].html');"
      "gallery_[page].html" "javascript:ContentPageHref(1,2".data [' '] [';']
      rfl (by decide) (by decide) (by decide) (by decide) (Or.inr rfl)
      (by decide)).trans (by decide)

/-- Rational threshold facts used by witnesses (ℚ arithmetic does not
kernel-reduce, so these are established by `norm_num` once). -/
theorem kb25600ge25 : ((25600 : Int) : ℚ) / 1024 ≥ 25 := by norm_num

/-- 0 is below the default 25 KB threshold. -/
theorem q0lt25 : (0 : ℚ) < 25 := by norm_num

/-- Case analysis on `download_image`: the filesystem is either unchanged,
or extended by exactly one entry at the destination path, which was free
before, with the response body as contents. -/
theorem download_image_fs_cases (http : String → Option ImgResponse)
    (url folder : String) (min_size_kb : ℚ) (fs : Fs) :
    (download_image http url folder min_size_kb fs).1 = fs ∨
    ∃ resp, http url = some resp ∧
      fsLook fs (osPathJoin folder (lastSegment url)) = none ∧
      (download_image http url folder min_size_kb fs).1
        = (osPathJoin folder (lastSegment url), resp.body) :: fs := by
  by_cases h1 : (fsLook fs (osPathJoin folder (lastSegment url))).isSome
  · left; simp [download_image, h1]
  · have hnone : fsLook fs (osPathJoin folder (lastSegment url)) = none :=
      Option.not_isSome_iff_eq_none.mp h1
    cases hh : http url with
    | none => left; simp [download_image, h1, hh]
    | some resp =>
      cases hcv : contentLengthVal resp.contentLength with
      | none => left; simp [download_image, h1, hh, hcv]
      | some n =>
        by_cases hge : (n : ℚ) / 1024 ≥ min_size_kb
        · right
          exact ⟨resp, rfl, hnone, by simp [download_image, h1, hh, hcv, hge]⟩
        · left; simp [download_image, h1, hh, hcv, hge]

/-- A write at a fresh path does not affect the entry of any stored path. -/
theorem fsLook_write_other {fs : Fs} {p q : String} {b c : List Nat}
    (h : fsLook fs p = some b) (hq : fsLook fs q = none) :
    fsLook ((q, c) :: fs) p = some b := by
  have hne : (p == q) = false := by
    rcases eq_or_ne p q with rfl | hne
    · rw [h] at hq; cases hq
    · simp [hne]
  simpa [fsLook, List.lookup, hne] using h

/-- `download_image` never deletes or overwrites an existing file. -/
theorem download_image_preserves (http : String → Option ImgResponse)
    (url folder : String) (min_size_kb : ℚ) (fs : Fs) (p : String) (b : List Nat)
    (h : fsLook fs p = some b) :
    fsLook (download_image http url folder min_size_kb fs).1 p = some b := by
  rcases download_image_fs_cases http url folder min_size_kb fs with hc | ⟨resp, _, hnone, hc⟩
  · rw [hc]; exact h
  · rw [hc]; exact fsLook_write_other h hnone

/-- C3: when the destination path already holds a file, admission performs
no fetch and no write; admission never changes the contents stored at any
existing path; and running admission twice from the same state leaves the
same filesystem as running it once (a file is written at most once). -/
theorem download_image_dedup (http : String → Option ImgResponse)
    (url folder : String) (min_size_kb : ℚ) (fs : Fs) :
    (∀ c, fsLook fs (osPathJoin folder (lastSegment url)) = some c →
        download_image http url folder min_size_kb fs = (fs, [])) ∧
    (∀ p b, fsLook fs p = some b →
        fsLook (download_image http url folder min_size_kb fs).1 p = some b) ∧
    (download_image http url folder min_size_kb
        (download_image http url folder min_size_kb fs).1).1
      = (download_image http url folder min_size_kb fs).1 := by
  refine ⟨fun c hc => by simp [download_image, hc],
    fun p b h => download_image_preserves http url folder min_size_kb fs p b h, ?_⟩
  rcases download_image_fs_cases http url folder min_size_kb fs with hc | ⟨resp, _, hnone, hc⟩
  · rw [hc]; exact hc
  · rw [hc]
    have hl : fsLook ((osPathJoin folder (lastSegment url), resp.body) :: fs)
        (osPathJoin folder (lastSegment url)) = some resp.body := by
      simp [fsLook, List.lookup]
    simp [download_image, hl]

/-- Witness for C3: the file is already present, so nothing happens. -/
theorem download_image_dedup_witness :
    download_image (fun _ => some ⟨some "25600", [9]⟩) "http://a/pic.jpg" "F" 25
        [("F/pic.jpg", [1])]
      = ([("F/pic.jpg", [1])], []) :=
  (download_image_dedup (fun _ => some ⟨some "25600", [9]⟩) "http://a/pic.jpg" "F" 25
    [("F/pic.jpg", [1])]).1 [1] (by decide)

/-- C2: for a fresh destination and a parsable content-length of `n` bytes,
admission writes the body exactly when `n / 1024` KB reaches the threshold:
at or above `min_size_kb` the file is created with the response body, below
it no file is created; the boundary cases `n = min_size_kb·1024` (accepted)
and `n = min_size_kb·1024 − 1` (rejected) follow. -/
theorem download_image_threshold (http : String → Option ImgResponse)
    (url folder : String) (min_size_kb : ℚ) (fs : Fs) (resp : ImgResponse)
    (s : String) (n : Int)
    (hnew : fsLook fs (osPathJoin folder (lastSegment url)) = none)
    (hhttp : http url = some resp)
    (hcl : resp.contentLength = some s)
    (hparse : pyIntParse s = some n) :
    ((n : ℚ) / 1024 ≥ min_size_kb →
        download_image http url folder min_size_kb fs
          = ((osPathJoin folder (lastSegment url), resp.body) :: fs, [url])) ∧
    ((n : ℚ) / 1024 < min_size_kb →
        download_image http url folder min_size_kb fs = (fs, [url]) ∧
        fsLook fs (osPathJoin folder (lastSegment url)) = none) ∧
    ((n : ℚ) = min_size_kb * 1024 →
        download_image http url folder min_size_kb fs
          = ((osPathJoin folder (lastSegment url), resp.body) :: fs, [url])) ∧
    ((n : ℚ) = min_size_kb * 1024 - 1 →
        download_image http url folder min_size_kb fs = (fs, [url])) := by
  have hcv : contentLengthVal resp.contentLength = some n := by
    rw [hcl]; exact hparse
  have hwrite : (n : ℚ) / 1024 ≥ min_size_kb →
      download_image http url folder min_size_kb fs
        = ((osPathJoin folder (lastSegment url), resp.body) :: fs, [url]) := by
    intro hge
    simp [download_image, hnew, hhttp, hcv, hge]
  have hskip : (n : ℚ) / 1024 < min_size_kb →
      download_image http url folder min_size_kb fs = (fs, [url]) := by
    intro hlt
    simp [download_image, hnew, hhttp, hcv, not_le.mpr hlt]
  refine ⟨hwrite, fun hlt => ⟨hskip hlt, hnew⟩, fun heq => hwrite ?_, fun heq => hskip ?_⟩
  · rw [heq, mul_div_cancel_right₀ min_size_kb (by norm_num : (1024 : ℚ) ≠ 0)]
  · rw [heq, div_lt_iff₀ (by norm_num : (0 : ℚ) < 1024)]
    linarith

/-- Witness for C2: 25600 declared bytes pass the default 25 KB gate. -/
theorem download_image_threshold_witness :
    download_image (fun u => if u = "http://a/pic.jpg" then some ⟨some "25600", [7, 8]⟩ else none)
        "http://a/pic.jpg" "F" 25 []
      = ([("F/pic.jpg", [7, 8])], ["http://a/pic.jpg"]) :=
  ((download_image_threshold
      (fun u => if u = "http://a/pic.jpg" then some ⟨some "25600", [7, 8]⟩ else none)
      "http://a/pic.jpg" "F" 25 [] ⟨some "25600", [7, 8]⟩ "25600" 25600
      rfl rfl rfl (by decide)).1 kb25600ge25).trans (by decide)

/-- C5 counterexample: with threshold 0 (≤ 0, so a 0-KB size would be
admitted) and an unparsable `content-length` of `"abc"`, the code raises
`ValueError` inside `int()`, the `except` swallows it, and no file is
written — the size is not "treated as 0". -/
theorem download_image_unparsable_counterexample :
    download_image (fun _ => some ⟨some "abc", [7]⟩) "http://a/p.jpg" "F" 0 []
      = ([], ["http://a/p.jpg"]) := by decide

/-- C5 (amended): an absent `content-length` header is treated as 0 bytes,
so the image is admitted exactly when `min_size_kb ≤ 0`; a present but
unparsable header instead aborts the download through the exception
handler, writing nothing regardless of the threshold. -/
theorem download_image_size_fallback (http : String → Option ImgResponse)
    (url folder : String) (min_size_kb : ℚ) (fs : Fs) (resp : ImgResponse)
    (hnew : fsLook fs (osPathJoin folder (lastSegment url)) = none)
    (hhttp : http url = some resp) :
    (resp.contentLength = none →
      (min_size_kb ≤ 0 →
          download_image http url folder min_size_kb fs
            = ((osPathJoin folder (lastSegment url), resp.body) :: fs, [url])) ∧
      (0 < min_size_kb →
          download_image http url folder min_size_kb fs = (fs, [url]))) ∧
    (∀ s, resp.contentLength = some s → pyIntParse s = none →
        download_image http url folder min_size_kb fs = (fs, [url])) := by
  constructor
  · intro hcl
    have hcv : contentLengthVal resp.contentLength = some 0 := by rw [hcl]; rfl
    have h0 : ((0 : Int) : ℚ) / 1024 = 0 := by norm_num
    constructor
    · intro hle
      have hge : ((0 : Int) : ℚ) / 1024 ≥ min_size_kb := by rw [h0]; exact hle
      simp [download_image, hnew, hhttp, hcv, hge, hle]
    · intro hlt
      have hng : ¬ ((0 : Int) : ℚ) / 1024 ≥ min_size_kb := by
        rw [h0]; exact not_le.mpr hlt
      simp [download_image, hnew, hhttp, hcv, hng, hlt]
  · intro s hcl hbad
    have hcv : contentLengthVal resp.contentLength = none := by rw [hcl]; exact hbad
    simp [download_image, hnew, hhttp, hcv]

/-- Witness for the amended C5: absent header, threshold 25, no write. -/
theorem download_image_size_fallback_witness :
    download_image (fun _ => some ⟨none, [7]⟩) "http://a/p.jpg" "F" 25 []
      = ([], ["http://a/p.jpg"]) :=
  (((download_image_size_fallback (fun _ => some ⟨none, [7]⟩) "http://a/p.jpg" "F" 25 []
      ⟨none, [7]⟩ rfl rfl).1 rfl).2 q0lt25)

/-- A URL beginning with `javascript:` splits into the scheme
`javascript` and the remainder. -/
theorem schemeSplit_javascript (rest : List Char) :
    schemeSplit ("javascript".data ++ ':' :: rest) = some ("javascript".data, rest) := by
  have hjav : ∀ c ∈ "javascript".data, (fun c => !decide (c = ':')) c = true := by decide
  have hdw : ("javascript".data ++ ':' :: rest).dropWhile (fun c => !decide (c = ':'))
      = ':' :: rest := dropWhile_all_append hjav (by decide) _
  have htw : ("javascript".data ++ ':' :: rest).takeWhile (fun c => !decide (c = ':'))
      = "javascript".data := takeWhile_all_append hjav (by decide) _
  have hcons : "javascript".data = 'j' :: "avascript".data := by decide
  have hmap : ('j' :: "avascript".data).map Char.toLower = "javascript".data := by decide
  simp [schemeSplit, hdw, htw, expectChar, hcons, hmap]
  all_goals decide

/-- `usesRelative` rejects the `javascript` scheme. -/
theorem usesRelative_javascript :
    usesRelative ['j', 'a', 'v', 'a', 's', 'c', 'r', 'i', 'p', 't'] = false := by decide

/-- `urljoin` returns a `javascript:`-scheme URL unchanged, whatever the
base: `javascript` is not in `uses_relative`. -/
theorem urljoin_javascript (cur href : String) (rest : List Char)
    (hdata : href.data = "javascript".data ++ ':' :: rest) :
    urljoin cur href = href := by
  by_cases hcur : cur = ""
  · simp [urljoin, hcur]
  · have hne : href ≠ "" := by
      intro h
      subst h
      rw [show ("" : String).data = [] from rfl,
        show "javascript".data = 'j' :: "avascript".data from by decide] at hdata
      simp at hdata
    have hss : schemeSplit href.data = some ("javascript".data, rest) := by
      rw [hdata]; exact schemeSplit_javascript rest
    cases hb : schemeSplit cur.data with
    | none => simp [urljoin, hcur, hne, hb, hss, usesRelative_javascript]
    | some pr => simp [urljoin, hcur, hne, hb, hss, usesRelative_javascript]

/-- C10: an href starting with `javascript:` but not with the exact
`javascript:ContentPageHref` prefix takes the direct-link branch, and since
`javascript` is not a relative-join scheme, `urljoin` passes the href
through unchanged — a non-http(s) URL is returned as the next page. -/
theorem get_next_url_javascript_passthrough (soup : Soup) (cur href : String)
    (hlink : soup.nextLink = some (some href))
    (hjs : pyStartsWith href "javascript:" = true)
    (hnotcp : pyStartsWith href "javascript:ContentPageHref" = false) :
    get_next_url soup cur = some (urljoin cur href) ∧ urljoin cur href = href := by
  obtain ⟨t, ht⟩ := List.isPrefixOf_iff_prefix.mp hjs
  have hdata : href.data = "javascript".data ++ ':' :: t := by
    rw [← ht]
    have h1 : "javascript:".data = "javascript".data ++ [':'] := by decide
    rw [h1, List.append_assoc]
    rfl
  exact ⟨by simp [get_next_url, hlink, hnotcp], urljoin_javascript cur href t hdata⟩

/-- Witness for C10: a different javascript call is passed through. -/
theorem get_next_url_javascript_passthrough_witness :
    get_next_url ⟨none, none, [], some (some "javascript:OtherFn(1)")⟩ "https://x/a_2.html"
      = some "javascript:OtherFn(1)" := by
  have h := get_next_url_javascript_passthrough
    ⟨none, none, [], some (some "javascript:OtherFn(1)")⟩ "https://x/a_2.html"
    "javascript:OtherFn(1)" rfl (by decide) (by decide)
  exact h.1.trans (congrArg some h.2)

/-- The per-page image pass never deletes or overwrites existing files. -/
theorem images_go_preserves (iget : String → Option ImgResponse)
    (url folder : String) (min_size_kb : ℚ) (srcs : List (Option String)) :
    ∀ fs p b, fsLook fs p = some b →
      fsLook (images_go iget url folder min_size_kb srcs fs) p = some b := by
  induction srcs with
  | nil => intro fs p b h; simpa [images_go] using h
  | cons src? rest ih =>
    intro fs p b h
    simp only [images_go]
    apply ih
    cases src? with
    | none => exact h
    | some src =>
      by_cases hs : src = ""
      · simpa [hs] using h
      · by_cases hh : pyStartsWith (urljoin url src) "http" = true
        · simpa [hs, hh] using
            download_image_preserves iget (urljoin url src) folder min_size_kb fs p b h
        · simpa [hs, hh] using h

/-- The crawl loop never deletes or overwrites existing files. -/
theorem crawl_loop_preserves (pget : String → Option PageResp)
    (iget : String → Option ImgResponse) (folder : String) (min_size_kb : ℚ) :
    ∀ fuel soup url fs fsOut oc,
      crawl_loop pget iget folder min_size_kb fuel soup url fs = some (fsOut, oc) →
      ∀ p b, fsLook fs p = some b → fsLook fsOut p = some b := by
  intro fuel
  induction fuel with
  | zero =>
    intro soup url fs fsOut oc h
    exact absurd h (by simp [crawl_loop])
  | succ n ih =>
    intro soup url fs fsOut oc h p b hb
    have hb1 : fsLook (process_images iget soup url folder min_size_kb fs) p = some b :=
      images_go_preserves iget url folder min_size_kb soup.imgs fs p b hb
    simp only [crawl_loop] at h
    cases hnext : get_next_url soup url with
    | none =>
      rw [hnext] at h
      injection h with h'
      injection h' with h1 h2
      rw [← h1]
      exact hb1
    | some nu =>
      rw [hnext] at h
      dsimp only at h
      by_cases he : nu = ""
      · rw [if_pos he] at h
        injection h with h'
        injection h' with h1 h2
        rw [← h1]
        exact hb1
      · rw [if_neg he] at h
        cases hp : pget nu with
        | none =>
          rw [hp] at h
          injection h with h'
          injection h' with h1 h2
          rw [← h1]
          exact hb1
        | some resp =>
          rw [hp] at h
          dsimp only at h
          by_cases hst : resp.status ≠ 200
          · rw [if_pos hst] at h
            injection h with h'
            injection h' with h1 h2
            rw [← h1]
            exact hb1
          · rw [if_neg hst] at h
            exact ih resp.soup nu _ fsOut oc h p b hb1

/-- C4 (amended): a page fetch that returns a non-200 status stops the
crawl loop and the run ends normally (`abortedHttp`) — on the initial
fetch with the filesystem untouched, on a subsequent fetch after the
current page's downloads; a transport-level error on a page fetch instead
raises an uncaught exception (`crashed`: the process does not exit
normally); and on every exit all files present before the failure are left
intact.  (The original claim's "exits normally on a transport error" is
refuted at `download_images_transport_crash`.) -/
theorem download_images_failure_modes (pget : String → Option PageResp)
    (iget : String → Option ImgResponse) (convert : String → String)
    (wordChar : Char → Bool) (start_url : String) (min_size_kb : ℚ)
    (fuel : Nat) (fs fsOut : Fs) (oc : CrawlOutcome)
    (h : download_images pget iget convert wordChar start_url min_size_kb fuel fs
      = some (fsOut, oc)) :
    (∀ p b, fsLook fs p = some b → fsLook fsOut p = some b) ∧
    (∀ resp, pget start_url = some resp → resp.status ≠ 200 →
      fsOut = fs ∧ oc = CrawlOutcome.abortedHttp) ∧
    (pget start_url = none → fsOut = fs ∧ oc = CrawlOutcome.crashed) ∧
    (∀ folder fuel2 soup url fs2 nu,
      get_next_url soup url = some nu → nu ≠ "" → pget nu = none →
      crawl_loop pget iget folder min_size_kb (fuel2 + 1) soup url fs2
        = some (process_images iget soup url folder min_size_kb fs2,
            CrawlOutcome.crashed)) ∧
    (∀ folder fuel2 soup url fs2 nu resp,
      get_next_url soup url = some nu → nu ≠ "" → pget nu = some resp →
      resp.status ≠ 200 →
      crawl_loop pget iget folder min_size_kb (fuel2 + 1) soup url fs2
        = some (process_images iget soup url folder min_size_kb fs2,
            CrawlOutcome.abortedHttp)) := by
  have step_crash : ∀ folder fuel2 soup url fs2 nu,
      get_next_url soup url = some nu → nu ≠ "" → pget nu = none →
      crawl_loop pget iget folder min_size_kb (fuel2 + 1) soup url fs2
        = some (process_images iget soup url folder min_size_kb fs2,
            CrawlOutcome.crashed) := by
    intro folder fuel2 soup url fs2 nu hnext hne hp
    simp [crawl_loop, hnext, hne, hp]
  have step_abort : ∀ folder fuel2 soup url fs2 nu resp,
      get_next_url soup url = some nu → nu ≠ "" → pget nu = some resp →
      resp.status ≠ 200 →
      crawl_loop pget iget folder min_size_kb (fuel2 + 1) soup url fs2
        = some (process_images iget soup url folder min_size_kb fs2,
            CrawlOutcome.abortedHttp) := by
    intro folder fuel2 soup url fs2 nu resp hnext hne hp hst
    simp [crawl_loop, hnext, hne, hp, hst]
  simp only [download_images] at h
  cases hp : pget start_url with
  | none =>
    rw [hp] at h
    injection h with h'
    injection h' with h1 h2
    exact ⟨fun p b hb => h1 ▸ hb, fun resp hr => absurd hr (by simp),
      fun _ => ⟨h1.symm, h2.symm⟩, step_crash, step_abort⟩
  | some resp =>
    rw [hp] at h
    dsimp only at h
    by_cases hst : resp.status ≠ 200
    · rw [if_pos hst] at h
      injection h with h'
      injection h' with h1 h2
      refine ⟨fun p b hb => h1 ▸ hb, fun r hr _ => ?_,
        fun hr => absurd hr (by simp), step_crash, step_abort⟩
      injection hr with hr'
      exact ⟨h1.symm, h2.symm⟩
    · rw [if_neg hst] at h
      have h200 : resp.status = 200 := not_ne_iff.mp hst
      have habs : ∀ r : PageResp, some resp = some r → r.status ≠ 200 →
          fsOut = fs ∧ oc = CrawlOutcome.abortedHttp := by
        intro r hr hr200
        injection hr with hr'
        exact absurd (hr' ▸ h200) hr200
      cases htitle : get_page_title convert resp.soup with
      | error e =>
        rw [htitle] at h
        dsimp only at h
        injection h with h'
        injection h' with h1 h2
        exact ⟨fun p b hb => h1 ▸ hb, habs, fun hr => absurd hr (by simp),
          step_crash, step_abort⟩
      | ok title =>
        rw [htitle] at h
        dsimp only at h
        by_cases hmk : sanitize_folder wordChar title = ""
        · rw [if_pos hmk] at h
          injection h with h'
          injection h' with h1 h2
          exact ⟨fun p b hb => h1 ▸ hb, habs, fun hr => absurd hr (by simp),
            step_crash, step_abort⟩
        · rw [if_neg hmk] at h
          exact ⟨fun p b hb =>
              crawl_loop_preserves pget iget (sanitize_folder wordChar title)
                min_size_kb fuel resp.soup start_url fs fsOut oc h p b hb,
            habs, fun hr => absurd hr (by simp), step_crash, step_abort⟩

/-- C4 counterexample: a transport error while fetching the second page
leaves the crawl in the `crashed` state — the exception from
`requests.get` propagates out of `download_images` and the process does
not exit normally, contrary to the claim. -/
theorem download_images_transport_crash :
    download_images
        (fun u => if u = "http://a/p1.html"
          then some ⟨200, ⟨some (TagNode.withString "T"), none, [], some (some "p2.html")⟩⟩
          else none)
        (fun _ => none) id asciiWordChar "http://a/p1.html" 25 5 []
      = some ([], CrawlOutcome.crashed) := by decide

/-- Witness for the amended C4: a run aborted by a non-200 initial status
keeps the pre-existing file intact. -/
theorem download_images_failure_modes_witness :
    fsLook [("F/a.jpg", [1])] "F/a.jpg" = some [1] :=
  (download_images_failure_modes
      (fun _ => some ⟨404, ⟨none, none, [], none⟩⟩) (fun _ => none) id
      asciiWordChar "http://a/p1.html" 25 1 [("F/a.jpg", [1])] [("F/a.jpg", [1])]
      CrawlOutcome.abortedHttp (by decide)).1 "F/a.jpg" [1] (by decide)
